import Mathlib

/-!
# DFS client library helpers and the proof-of-work client

A shallow embedding of

* `src/assignment-2/dfslib/dfslib.go` (`MountDFS`, `CheckFilename`, `CreateFile`,
  `FetchOldId`, `StoreFileOnDisk`, `WriteChunk`), and
* `src/assignment-1/client.go` (`computeNonceSecretHash`, `computeSecret`),

together with the parts of the Go standard library these functions call
(`regexp`, `unicode/utf8`, `path`, `strconv`, `os`, `crypto/md5`, `encoding/hex`),
modelled after their documented behaviour.
-/

set_option autoImplicit false

namespace DFS

/-! ## Go strings -/

/-- A Go `string` (and a `[]byte`) is a finite sequence of bytes. -/
abbrev GoString := List (Fin 256)

/-- The bytes of an ASCII literal. -/
def ascii (s : String) : GoString :=
  s.data.map (fun c => Fin.ofNat c.toNat)

/-! ## `unicode/utf8`: decoding one rune -/

/-- The value `utf8.RuneError` (U+FFFD). -/
def RuneError : Nat := 0xFFFD

/-- The `first` and `acceptRanges` tables of `unicode/utf8`, for a leading byte that is
not ASCII: the length of the sequence and the range accepted for its second byte;
`none` for a byte that cannot start a sequence. -/
def firstInfo (b : Nat) : Option (Nat × Nat × Nat) :=
  if 0xC2 ≤ b ∧ b ≤ 0xDF then some (2, 0x80, 0xBF)
  else if b = 0xE0 then some (3, 0xA0, 0xBF)
  else if 0xE1 ≤ b ∧ b ≤ 0xEC then some (3, 0x80, 0xBF)
  else if b = 0xED then some (3, 0x80, 0x9F)
  else if 0xEE ≤ b ∧ b ≤ 0xEF then some (3, 0x80, 0xBF)
  else if b = 0xF0 then some (4, 0x90, 0xBF)
  else if 0xF1 ≤ b ∧ b ≤ 0xF3 then some (4, 0x80, 0xBF)
  else if b = 0xF4 then some (4, 0x80, 0x8F)
  else none

/-- The function `utf8.DecodeRuneInString`: the first rune of `s` and its width in bytes.
An invalid encoding yields `(RuneError, 1)`, the empty string `(RuneError, 0)`. The
masks and shifts of the source are written as `%` and `*`. -/
def DecodeRuneInString : GoString → Nat × Nat
  | [] => (RuneError, 0)
  | s0 :: rest =>
    if s0.val < 0x80 then (s0.val, 1)
    else
      match firstInfo s0.val with
      | none => (RuneError, 1)
      | some (sz, lo, hi) =>
        if rest.length + 1 < sz then (RuneError, 1)
        else
          match rest with
          | [] => (RuneError, 1)
          | s1 :: rest1 =>
            if s1.val < lo ∨ hi < s1.val then (RuneError, 1)
            else if sz ≤ 2 then ((s0.val % 32) * 64 + s1.val % 64, 2)
            else
              match rest1 with
              | [] => (RuneError, 1)
              | s2 :: rest2 =>
                if s2.val < 0x80 ∨ 0xBF < s2.val then (RuneError, 1)
                else if sz ≤ 3 then
                  ((s0.val % 16) * 4096 + (s1.val % 64) * 64 + s2.val % 64, 3)
                else
                  match rest2 with
                  | [] => (RuneError, 1)
                  | s3 :: _ =>
                    if s3.val < 0x80 ∨ 0xBF < s3.val then (RuneError, 1)
                    else
                      ((s0.val % 8) * 262144 + (s1.val % 64) * 4096
                        + (s2.val % 64) * 64 + s3.val % 64, 4)

/-- The runes of a string, decoded front to back as `regexp` steps through its input
(`fuel` bounds the number of runes; the length of the string is enough). -/
def decodeRunes : Nat → GoString → List Nat
  | 0, _ => []
  | _ + 1, [] => []
  | fuel + 1, b :: bs =>
    (DecodeRuneInString (b :: bs)).1 ::
      decodeRunes fuel ((b :: bs).drop (DecodeRuneInString (b :: bs)).2)

/-- The runes of a string. -/
def runes (s : GoString) : List Nat := decodeRunes s.length s

/-! ## `regexp`: a backtracking matcher for the fragment used by `CheckFilename` -/

/-- Regular expressions: the constructs that occur in `^[a-z0-9]+$`. -/
inductive Regexp where
  /-- The assertion `^` (without flag `m`): at the beginning of the text. -/
  | beginText : Regexp
  /-- The assertion `$` (without flag `m`): at the end of the text. -/
  | endText : Regexp
  /-- A character class, a list of inclusive rune ranges. -/
  | charClass (ranges : List (Nat × Nat)) : Regexp
  /-- Concatenation. -/
  | concat (a b : Regexp) : Regexp
  /-- One or more repetitions, `a+`. -/
  | plus (a : Regexp) : Regexp
  deriving DecidableEq, Repr

/-- Membership of a rune in a character class. -/
def inClass (ranges : List (Nat × Nat)) (r : Nat) : Bool :=
  ranges.any (fun p => decide (p.1 ≤ r) && decide (r ≤ p.2))

/-- Number of constructors of a regular expression. -/
def Regexp.size : Regexp → Nat
  | .beginText => 1
  | .endText => 1
  | .charClass _ => 1
  | .concat a b => a.size + b.size + 1
  | .plus a => a.size + 1

/-- Backtracking match of `re` against the rest `s` of the input, which starts at rune
position `pos`; `k` is asked about what follows every way `re` can match. Every call
spends one unit of `fuel`. -/
def matchFrom : Nat → Regexp → Nat → List Nat → (Nat → List Nat → Bool) → Bool
  | 0, _, _, _, _ => false
  | _ + 1, .beginText, pos, s, k => decide (pos = 0) && k pos s
  | _ + 1, .endText, pos, s, k => s.isEmpty && k pos s
  | _ + 1, .charClass _, _, [], _ => false
  | _ + 1, .charClass rs, pos, c :: s, k => inClass rs c && k (pos + 1) s
  | fuel + 1, .concat a b, pos, s, k =>
    matchFrom fuel a pos s (fun pos1 s1 => matchFrom fuel b pos1 s1 k)
  | fuel + 1, .plus a, pos, s, k =>
    matchFrom fuel a pos s
      (fun pos1 s1 => k pos1 s1 || matchFrom fuel (.plus a) pos1 s1 k)

/-- The method `(*Regexp).MatchString`: whether some substring of `s` matches `re`
(the search is not anchored; every start position is tried). -/
def MatchString (re : Regexp) (s : GoString) : Bool :=
  let rs := runes s
  (List.range (rs.length + 1)).any
    (fun i => matchFrom (rs.length + re.size + 1) re i (rs.drop i) (fun _ _ => true))

/-- The character class `[a-z0-9]`. -/
def alnumClass : List (Nat × Nat) := [(0x61, 0x7A), (0x30, 0x39)]

/-- The expression `regexp.MustCompile("^[a-z0-9]+$")`. -/
def filenameRegexp : Regexp :=
  .concat .beginText (.concat (.plus (.charClass alnumClass)) .endText)

/-! ## `dfslib.CheckFilename` -/

/-- The function `CheckFilename` of `dfslib.go`. -/
def CheckFilename (fname : GoString) : Bool :=
  let length := fname.length
  if length < 1 ∨ length > 16 then false
  else MatchString filenameRegexp fname

/-- A byte that is a lowercase ASCII letter `a`-`z` or a digit `0`-`9`. -/
def isLowerAlnum (b : Fin 256) : Prop :=
  (0x61 ≤ b.val ∧ b.val ≤ 0x7A) ∨ (0x30 ≤ b.val ∧ b.val ≤ 0x39)

instance (b : Fin 256) : Decidable (isLowerAlnum b) := by
  unfold isLowerAlnum; infer_instance

/-! ## `path`: `Clean` and `Join` -/

/-- The components of a path between its slashes (byte `0x2F`), empty ones included. -/
def splitSlash : GoString → List GoString
  | [] => [[]]
  | c :: rest =>
    if c.val = 0x2F then [] :: splitSlash rest
    else
      match splitSlash rest with
      | [] => [[c]]
      | w :: ws => (c :: w) :: ws

/-- One step of `path.Clean` over the components kept so far (last one first): an empty
component and `.` are dropped, `..` removes the component before it, is dropped at the
root, and is kept at the start of a path that is not rooted. -/
def cleanStep (rooted : Bool) (kept : List GoString) (c : GoString) : List GoString :=
  if c = [] ∨ c = ascii "." then kept
  else if c = ascii ".." then
    match kept with
    | [] => if rooted then [] else [c]
    | top :: below => if top = ascii ".." then c :: top :: below else below
  else c :: kept

/-- The function `path.Clean`: the shortest path name equivalent to `p`. -/
def Clean (p : GoString) : GoString :=
  match p with
  | [] => ascii "."
  | c :: _ =>
    let rooted := decide (c.val = 0x2F)
    let kept := ((splitSlash p).foldl (cleanStep rooted) []).reverse
    let body := (ascii "/").intercalate kept
    if rooted then ascii "/" ++ body
    else if body = [] then ascii "." else body

/-- The loop of `path.Join` that builds the buffer: elements are separated by slashes,
empty elements before the first non-empty one are skipped. -/
def joinBuf : GoString → List GoString → GoString
  | buf, [] => buf
  | buf, e :: rest =>
    if buf.length > 0 ∨ e ≠ [] then
      joinBuf ((if buf.length > 0 then buf ++ ascii "/" else buf) ++ e) rest
    else joinBuf buf rest

/-- The function `path.Join`. -/
def Join (elem : List GoString) : GoString :=
  if (elem.map List.length).sum = 0 then []
  else Clean (joinBuf [] elem)

/-! ## Errors -/

/-- The type `FileMode` of `dfslib.go`. -/
inductive FileMode where
  | READ : FileMode
  | WRITE : FileMode
  | DREAD : FileMode
  deriving DecidableEq, Repr

/-- System calls made by the library on a path. -/
inductive Syscall where
  | stat : Syscall
  | create : Syscall
  | openRead : Syscall
  | openWrite : Syscall
  | read : Syscall
  | write : Syscall
  deriving DecidableEq, Repr

/-- Values of the interface type `error`: the error types declared in `dfslib.go`, each
with its payload, and the errors of the standard library that reach the library. -/
inductive GoError where
  | DisconnectedError (serverAddr : GoString) : GoError
  | ChunkUnavailableError (chunkNum : Fin 256) : GoError
  | OpenWriteConflictError (fname : GoString) : GoError
  | BadFileModeError (mode : FileMode) : GoError
  | WriteModeTimeoutError (fname : GoString) : GoError
  | BadFilenameError (fname : GoString) : GoError
  | FileUnavailableError (fname : GoString) : GoError
  | LocalPathError (localPath : GoString) : GoError
  | FileDoesNotExistError (fname : GoString) : GoError
  /-- An `*os.PathError`; `notExist` tells whether `os.IsNotExist` holds of it. -/
  | PathError (op : Syscall) (path : GoString) (notExist : Bool) : GoError
  /-- The error `io.EOF`. -/
  | EOF : GoError
  /-- A `*strconv.NumError`; `range` tells `ErrRange` from `ErrSyntax`. -/
  | NumError (input : GoString) (range : Bool) : GoError
  deriving DecidableEq, Repr

/-! ## `strconv`: `FormatInt`, `Itoa`, `Atoi` -/

/-- The size of an `int` in bits (`strconv.IntSize` on a 64-bit platform). -/
def intSize : Nat := 64

/-- The loop of `strconv.formatBits` for base 10: the digits of `u` are put in front of
`acc`, least significant first. A `uint64` has at most 20 decimal digits. -/
def formatBits : Nat → Nat → GoString → GoString
  | 0, _, acc => acc
  | fuel + 1, u, acc =>
    let acc1 : GoString := ⟨0x30 + u % 10, by omega⟩ :: acc
    if u / 10 = 0 then acc1 else formatBits fuel (u / 10) acc1

/-- The function `strconv.FormatInt(i, 10)` for an `int64` value `i`. -/
def FormatInt (i : Int) : GoString :=
  if i < 0 then ascii "-" ++ formatBits 20 i.natAbs [] else formatBits 20 i.natAbs []

/-- The function `strconv.Itoa`. -/
def Itoa (i : Int) : GoString := FormatInt i

/-- The value of a string of decimal digits; `none` when a byte is not a digit. -/
def parseDigits : Nat → GoString → Option Nat
  | n, [] => some n
  | n, ch :: rest =>
    if 0x30 ≤ ch.val ∧ ch.val ≤ 0x39 then parseDigits (n * 10 + (ch.val - 0x30)) rest
    else none

/-- The function `strconv.Atoi`: an optional sign followed by one or more decimal
digits. A string of another form gives `0` and a syntax error, a value that does not
fit an `int` gives the nearest `int` and a range error. -/
def Atoi (s : GoString) : Int × Option GoError :=
  let neg : Bool := s.head? = some 0x2D
  let body : GoString := if s.head? = some 0x2D ∨ s.head? = some 0x2B then s.drop 1 else s
  if body = [] then (0, some (.NumError s false))
  else
    match parseDigits 0 body with
    | none => (0, some (.NumError s false))
    | some un =>
      if neg then
        if un > 2 ^ (intSize - 1) then (-(2 ^ (intSize - 1) : Int), some (.NumError s true))
        else (-(un : Int), none)
      else
        if un ≥ 2 ^ (intSize - 1) then ((2 ^ (intSize - 1) : Int) - 1, some (.NumError s true))
        else ((un : Int), none)

/-! ## `os`: the local file system -/

/-- The local file system as the library sees it: the content of the regular file at
each path (`none` where there is no file), and the system calls that fail on a path for
a reason other than the file being absent (permissions, a missing or read-only
directory, an I/O error, a full disk). -/
structure FileSys where
  files : GoString → Option (List (Fin 256))
  fails : Syscall → GoString → Bool

/-- The file system with the file at `path` holding `data`. -/
def FileSys.put (fs : FileSys) (path : GoString) (data : List (Fin 256)) : FileSys :=
  { fs with files := fun q => if q = path then some data else fs.files q }

/-- The error of `os.Stat(name)`. -/
def osStat (fs : FileSys) (name : GoString) : Option GoError :=
  if fs.fails .stat name then some (.PathError .stat name false)
  else if fs.files name = none then some (.PathError .stat name true)
  else none

/-- The function `os.IsNotExist`. -/
def IsNotExist : Option GoError → Bool
  | some (.PathError _ _ notExist) => notExist
  | _ => false

/-- The function `os.Create(name)`: creates the file, or truncates it when it exists. -/
def osCreate (fs : FileSys) (name : GoString) : FileSys × Option GoError :=
  if fs.fails .create name then (fs, some (.PathError .create name false))
  else (fs.put name [], none)

/-- The error of `os.Open(name)`, which opens the file for reading. -/
def osOpen (fs : FileSys) (name : GoString) : Option GoError :=
  if fs.fails .openRead name then some (.PathError .openRead name false)
  else if fs.files name = none then some (.PathError .openRead name true)
  else none

/-- The error of `os.OpenFile(name, os.O_WRONLY, perm)`: the file is opened for
writing at offset 0; it is neither created nor truncated nor put in append mode (the
permission argument only matters with `O_CREATE`). -/
def osOpenFileWronly (fs : FileSys) (name : GoString) : Option GoError :=
  if fs.fails .openWrite name then some (.PathError .openWrite name false)
  else if fs.files name = none then some (.PathError .openWrite name true)
  else none

/-- The first `(*File).Read` on a file just opened, into a buffer of `size` bytes: the
bytes read and the error; at the end of the file it reads nothing and returns `io.EOF`. -/
def fileRead (fs : FileSys) (name : GoString) (size : Nat) :
    List (Fin 256) × Option GoError :=
  if fs.fails .read name then ([], some (.PathError .read name false))
  else
    match fs.files name with
    | none => ([], some (.PathError .read name false))
    | some data =>
      if data = [] ∧ size > 0 then ([], some .EOF) else (data.take size, none)

/-- The content of a file after `b` is written at byte offset `off`: a gap between the
old end of the file and `off` reads as zero bytes, bytes after the written range stay. -/
def writeAt (old : List (Fin 256)) (off : Nat) (b : List (Fin 256)) : List (Fin 256) :=
  (old ++ List.replicate (off - old.length) 0).take off ++ b ++ old.drop (off + b.length)

/-- The method `(*File).WriteAt(b, off)` on a file opened for writing. -/
def fileWriteAt (fs : FileSys) (name : GoString) (b : List (Fin 256)) (off : Nat) :
    FileSys × Option GoError :=
  if fs.fails .write name then (fs, some (.PathError .write name false))
  else
    match fs.files name with
    | none => (fs, some (.PathError .write name false))
    | some old => (fs.put name (writeAt old off b), none)

/-- The first `(*File).Write(b)` on a file just opened for writing: it writes at
offset 0. -/
def fileWrite (fs : FileSys) (name : GoString) (b : List (Fin 256)) :
    FileSys × Option GoError :=
  fileWriteAt fs name b 0

/-! ## `dfslib`: the constructor and the local storage helpers -/

/-- A `Chunk` is an array of 32 bytes. -/
structure Chunk where
  bytes : List (Fin 256)
  size : bytes.length = 32

/-- A value of the interface type `DFS`. The source declares the interface and no type
that implements it. -/
structure DFSHandle where
  localPath : GoString
  deriving DecidableEq, Repr

/-- The function `MountDFS` of `dfslib.go`: the handle (`none` for `nil`) and the error. -/
def MountDFS (_serverAddr : GoString) (_localIP : GoString) (localPath : GoString) :
    Option DFSHandle × Option GoError :=
  (none, some (.LocalPathError localPath))

/-- The function `CreateFile` of `dfslib.go`: the file system afterwards and the error. -/
def CreateFile (fs : FileSys) (fullPath : GoString) : FileSys × Option GoError :=
  if IsNotExist (osStat fs fullPath) then
    match osCreate fs fullPath with
    | (fs1, some _) => (fs1, some (.LocalPathError fullPath))
    | (fs1, none) => (fs1, none)
  else (fs, none)

/-- The function `FetchOldId` of `dfslib.go`: the file system afterwards, the id and the
error. The `id` assigned from `strconv.Atoi` is a new variable of the inner block, so a
failed conversion returns the value `Atoi` gave and not `-1`. -/
def FetchOldId (fs : FileSys) (localPath : GoString) : FileSys × Int × Option GoError :=
  let id : Int := -1
  let fullPath := Join [localPath, ascii "id.txt"]
  if IsNotExist (osStat fs fullPath) then
    match osCreate fs fullPath with
    | (fs1, some _) => (fs1, id, some (.LocalPathError fullPath))
    | (fs1, none) => (fs1, id, none)
  else
    match osOpen fs fullPath with
    | some _ => (fs, id, some (.LocalPathError fullPath))
    | none =>
      match fileRead fs fullPath 64 with
      | (_, some _) => (fs, id, some (.LocalPathError fullPath))
      | (idBuf, none) =>
        match Atoi idBuf with
        | (id1, some _) => (fs, id1, some (.LocalPathError fullPath))
        | (id1, none) => (fs, id1, none)

/-- The function `StoreFileOnDisk` of `dfslib.go`. -/
def StoreFileOnDisk (fs : FileSys) (contents : List (Fin 256)) (localPath fname : GoString) :
    FileSys × Option GoError :=
  let fullPath := Join [localPath, fname ++ ascii ".dfs"]
  match CreateFile fs fullPath with
  | (fs1, some _) => (fs1, some (.LocalPathError fullPath))
  | (fs1, none) =>
    match osOpenFileWronly fs1 fullPath with
    | some _ => (fs1, some (.LocalPathError fullPath))
    | none =>
      match fileWrite fs1 fullPath contents with
      | (fs2, some _) => (fs2, some (.LocalPathError fullPath))
      | (fs2, none) => (fs2, none)

/-- The function `WriteChunk` of `dfslib.go`. -/
def WriteChunk (fs : FileSys) (localPath fname : GoString) (chunk : Chunk)
    (chunkNum : Fin 256) : FileSys × Option GoError :=
  let fullPath := Join [localPath, fname ++ ascii ".dfs"]
  match CreateFile fs fullPath with
  | (fs1, some _) => (fs1, some (.LocalPathError fullPath))
  | (fs1, none) =>
    match osOpenFileWronly fs1 fullPath with
    | some _ => (fs1, some (.LocalPathError fullPath))
    | none =>
      match fileWriteAt fs1 fullPath chunk.bytes chunkNum.val with
      | (fs2, some _) => (fs2, some (.LocalPathError fullPath))
      | (fs2, none) => (fs2, none)

/-- The file system in which no file exists and no system call fails. -/
def emptyFS : FileSys :=
  { files := fun _ => none, fails := fun _ _ => false }

/-- The chunk whose 32 bytes all equal `b`. -/
def constChunk (b : Fin 256) : Chunk :=
  ⟨List.replicate 32 b, List.length_replicate 32 b⟩


/-! ## `crypto/md5` and `encoding/hex` -/

/-- The per-round left-rotation amounts of MD5 (RFC 1321). -/
def md5Shift : List Nat :=
  [7, 12, 17, 22, 7, 12, 17, 22, 7, 12, 17, 22, 7, 12, 17, 22,
   5, 9, 14, 20, 5, 9, 14, 20, 5, 9, 14, 20, 5, 9, 14, 20,
   4, 11, 16, 23, 4, 11, 16, 23, 4, 11, 16, 23, 4, 11, 16, 23,
   6, 10, 15, 21, 6, 10, 15, 21, 6, 10, 15, 21, 6, 10, 15, 21]

/-- The table of MD5: entry `i` is the integer part of `2^32 * |sin (i + 1)|`. -/
def md5Table : List Nat :=
  [0xd76aa478, 0xe8c7b756, 0x242070db, 0xc1bdceee,
   0xf57c0faf, 0x4787c62a, 0xa8304613, 0xfd469501,
   0x698098d8, 0x8b44f7af, 0xffff5bb1, 0x895cd7be,
   0x6b901122, 0xfd987193, 0xa679438e, 0x49b40821,
   0xf61e2562, 0xc040b340, 0x265e5a51, 0xe9b6c7aa,
   0xd62f105d, 0x02441453, 0xd8a1e681, 0xe7d3fbc8,
   0x21e1cde6, 0xc33707d6, 0xf4d50d87, 0x455a14ed,
   0xa9e3e905, 0xfcefa3f8, 0x676f02d9, 0x8d2a4c8a,
   0xfffa3942, 0x8771f681, 0x6d9d6122, 0xfde5380c,
   0xa4beea44, 0x4bdecfa9, 0xf6bb4b60, 0xbebfbc70,
   0x289b7ec6, 0xeaa127fa, 0xd4ef3085, 0x04881d05,
   0xd9d4d039, 0xe6db99e5, 0x1fa27cf8, 0xc4ac5665,
   0xf4292244, 0x432aff97, 0xab9423a7, 0xfc93a039,
   0x655b59c3, 0x8f0ccc92, 0xffeff47d, 0x85845dd1,
   0x6fa87e4f, 0xfe2ce6e0, 0xa3014314, 0x4e0811a1,
   0xf7537e82, 0xbd3af235, 0x2ad7d2bb, 0xeb86d391]

/-- Rotation of a 32-bit word to the left by `c` bits. -/
def rotl32 (x c : Nat) : Nat :=
  ((x <<< c) ||| (x >>> (32 - c))) % 2 ^ 32

/-- The state of MD5: four 32-bit words. -/
structure MD5State where
  a : Nat
  b : Nat
  c : Nat
  d : Nat
  deriving DecidableEq, Repr

/-- The message with the padding of MD5: a byte `0x80`, zero bytes up to 56 modulo 64,
and the length of the message in bits as 8 bytes, least significant first. -/
def md5Pad (msg : List (Fin 256)) : List Nat :=
  msg.map Fin.val ++ [0x80] ++ List.replicate ((55 + 64 - msg.length % 64) % 64) 0
    ++ (List.range 8).map (fun i => (msg.length * 8 / 256 ^ i) % 256)

/-- Bytes grouped into 32-bit words, least significant byte first. -/
def leWords : List Nat → List Nat
  | b0 :: b1 :: b2 :: b3 :: rest =>
    (b0 + b1 * 2 ^ 8 + b2 * 2 ^ 16 + b3 * 2 ^ 24) :: leWords rest
  | _ => []

/-- Step `i` of the 64 steps MD5 makes on a block `m` of 16 words. -/
def md5Step (m : List Nat) (s : MD5State) (i : Nat) : MD5State :=
  let f : Nat :=
    if i < 16 then (s.b &&& s.c) ||| ((s.b ^^^ 0xFFFFFFFF) &&& s.d)
    else if i < 32 then (s.d &&& s.b) ||| ((s.d ^^^ 0xFFFFFFFF) &&& s.c)
    else if i < 48 then s.b ^^^ s.c ^^^ s.d
    else s.c ^^^ (s.b ||| (s.d ^^^ 0xFFFFFFFF))
  let g : Nat :=
    if i < 16 then i
    else if i < 32 then (5 * i + 1) % 16
    else if i < 48 then (3 * i + 5) % 16
    else (7 * i) % 16
  let x : Nat := (f + s.a + md5Table.getD i 0 + m.getD g 0) % 2 ^ 32
  { a := s.d, b := (s.b + rotl32 x (md5Shift.getD i 0)) % 2 ^ 32, c := s.b, d := s.c }

/-- The state after the block `m` of 16 words. -/
def md5Block (s : MD5State) (m : List Nat) : MD5State :=
  let t := (List.range 64).foldl (md5Step m) s
  { a := (s.a + t.a) % 2 ^ 32, b := (s.b + t.b) % 2 ^ 32,
    c := (s.c + t.c) % 2 ^ 32, d := (s.d + t.d) % 2 ^ 32 }

/-- The state after all blocks of the word list (`fuel` bounds the number of blocks). -/
def md5Blocks : Nat → MD5State → List Nat → MD5State
  | 0, s, _ => s
  | _ + 1, s, [] => s
  | fuel + 1, s, w :: ws => md5Blocks fuel (md5Block s ((w :: ws).take 16)) ((w :: ws).drop 16)

/-- The four bytes of a 32-bit word, least significant first. -/
def leBytes (w : Nat) : List (Fin 256) :=
  [Fin.ofNat w, Fin.ofNat (w / 2 ^ 8), Fin.ofNat (w / 2 ^ 16), Fin.ofNat (w / 2 ^ 24)]

/-- The MD5 digest of a message (`md5.New`, `Write`, `Sum(nil)`): 16 bytes. -/
def md5Sum (msg : List (Fin 256)) : List (Fin 256) :=
  let ws := leWords (md5Pad msg)
  let s := md5Blocks ws.length
    { a := 0x67452301, b := 0xefcdab89, c := 0x98badcfe, d := 0x10325476 } ws
  leBytes s.a ++ leBytes s.b ++ leBytes s.c ++ leBytes s.d

/-- The hexadecimal digit of a value below 16, in lower case. -/
def hexDigit (n : Nat) : Fin 256 :=
  if n < 10 then Fin.ofNat (0x30 + n) else Fin.ofNat (0x61 + (n - 10))

/-- The function `hex.EncodeToString`: two lower-case hexadecimal digits per byte. -/
def EncodeToString (src : List (Fin 256)) : GoString :=
  src.flatMap (fun b => [hexDigit (b.val / 16), hexDigit (b.val % 16)])

/-! ## The proof-of-work client -/

/-- The function `computeNonceSecretHash` of `client.go`. -/
def computeNonceSecretHash (nonce secret : GoString) : GoString :=
  EncodeToString (md5Sum (nonce ++ secret))

/-- Whether the string `val` ends with `n` characters `0`. -/
def endsWithZeros (val : GoString) (n : Nat) : Bool :=
  decide (n ≤ val.length ∧ val.drop (val.length - n) = List.replicate n 0x30)

/-- How a call of `computeSecret` ends. -/
inductive Outcome where
  /-- The string was sent on the channel `secret`. -/
  | sent (s : GoString) : Outcome
  /-- A value arrived on the channel `done`: the call returned without sending. -/
  | cancelled : Outcome
  /-- The slice expression was out of range: the call panicked. -/
  | panicked : Outcome
  deriving DecidableEq, Repr

/-- The slice expression `val[low:]`: `none` when `low` is out of range. -/
def sliceFrom (val : GoString) (low : Int) : Option GoString :=
  if low < 0 ∨ (val.length : Int) < low then none else some (val.drop low.toNat)

/-- The loop `for i = lo; i < hi; i++` of `computeSecret`, with `count` iterations left
before `i` reaches `hi`; `done i` tells whether a value is ready on the channel `done`
when the `select` of the iteration for `i` runs. -/
def searchLoop (nonce : GoString) (n : Int) (zeros : GoString) (done : Int → Bool) :
    Nat → Int → Outcome
  | 0, i => .sent (FormatInt i)
  | count + 1, i =>
    if done i then .cancelled
    else
      match sliceFrom (computeNonceSecretHash nonce (FormatInt i))
          ((computeNonceSecretHash nonce (FormatInt i)).length - n) with
      | none => .panicked
      | some tail =>
        if tail = zeros then .sent (FormatInt i)
        else searchLoop nonce n zeros done count (i + 1)

/-- The function `computeSecret` of `client.go`. -/
def computeSecret (nonce : GoString) (n lo hi : Int) (done : Int → Bool) : Outcome :=
  searchLoop nonce n (List.replicate n.toNat 0x30) done (hi - lo).toNat lo


/-! # Theorems -/

/-! ### `CheckFilename` -/

/-- Membership in the class `[a-z0-9]`, spelled out. -/
theorem inClass_alnum (r : Nat) :
    inClass alnumClass r = true ↔ (0x61 ≤ r ∧ r ≤ 0x7A) ∨ (0x30 ≤ r ∧ r ≤ 0x39) := by
  simp [inClass, alnumClass]

/-- A byte below `0x80` decodes to itself, with width 1. -/
theorem decode_ascii (b : Fin 256) (bs : GoString) (h : b.val < 0x80) :
    DecodeRuneInString (b :: bs) = (b.val, 1) := by
  simp [DecodeRuneInString, h]

/-- The entries of the table `firstInfo`. -/
theorem firstInfo_spec (b sz lo hi : Nat) (h : firstInfo b = some (sz, lo, hi)) :
    hi ≤ 0xBF ∧ ((sz = 2 ∧ 0xC2 ≤ b ∧ b ≤ 0xDF) ∨ (sz = 3 ∧ b = 0xE0 ∧ lo = 0xA0)
      ∨ (sz = 3 ∧ 0xE1 ≤ b ∧ b ≤ 0xEF) ∨ (sz = 4 ∧ b = 0xF0 ∧ lo = 0x90)
      ∨ (sz = 4 ∧ 0xF1 ≤ b ∧ b ≤ 0xF4)) := by
  unfold firstInfo at h
  repeat' split at h
  all_goals simp only [Option.some.injEq, Prod.mk.injEq, reduceCtorEq] at h
  all_goals omega

/-- A string that starts with a byte from `0x80` on decodes to a rune from `0x80` on. -/
theorem decode_not_ascii (b : Fin 256) (bs : GoString) (h : ¬ b.val < 0x80) :
    0x80 ≤ (DecodeRuneInString (b :: bs)).1 := by
  unfold DecodeRuneInString
  simp only [h, if_false]
  split
  · decide
  · rename_i sz lo hi hf
    have hs := firstInfo_spec _ _ _ _ hf
    repeat' split
    all_goals (simp only [RuneError]; omega)

/-- A decoded rune lies in `[a-z0-9]` exactly when the byte it starts with does. -/
theorem decode_inClass (b : Fin 256) (bs : GoString) :
    inClass alnumClass (DecodeRuneInString (b :: bs)).1 = true ↔ isLowerAlnum b := by
  by_cases h : b.val < 0x80
  · rw [decode_ascii b bs h, inClass_alnum]; rfl
  · have := decode_not_ascii b bs h
    rw [inClass_alnum]
    unfold isLowerAlnum
    omega

/-- Lowercase letters and digits are ASCII. -/
theorem isLowerAlnum_lt (b : Fin 256) (h : isLowerAlnum b) : b.val < 0x80 := by
  unfold isLowerAlnum at h; omega

/-- All runes of a string lie in `[a-z0-9]` exactly when all its bytes do. -/
theorem decodeRunes_all (fuel : Nat) (s : GoString) (h : s.length ≤ fuel) :
    (decodeRunes fuel s).all (inClass alnumClass) = true ↔ ∀ b ∈ s, isLowerAlnum b := by
  induction fuel generalizing s with
  | zero =>
    have : s = [] := List.length_eq_zero.mp (Nat.le_zero.mp h)
    subst this; simp [decodeRunes]
  | succ fuel ih =>
    cases s with
    | nil => simp [decodeRunes]
    | cons b bs =>
      simp only [decodeRunes, List.all_cons, Bool.and_eq_true, List.mem_cons, forall_eq_or_imp]
      rw [decode_inClass]
      constructor
      · rintro ⟨hb, hr⟩
        refine ⟨hb, ?_⟩
        rw [decode_ascii b bs (isLowerAlnum_lt b hb)] at hr
        exact (ih bs (by simpa using h)).mp (by simpa using hr)
      · rintro ⟨hb, hr⟩
        refine ⟨hb, ?_⟩
        rw [decode_ascii b bs (isLowerAlnum_lt b hb)]
        simpa using (ih bs (by simpa using h)).mpr hr

/-- A string has no runes exactly when it is empty. -/
theorem runes_isEmpty (s : GoString) : (runes s).isEmpty = s.isEmpty := by
  cases s <;> simp [runes, decodeRunes]

/-- Unfolding of `matchFrom` at `a+`. -/
theorem matchFrom_plus (fuel : Nat) (a : Regexp) (pos : Nat) (s : List Nat)
    (k : Nat → List Nat → Bool) :
    matchFrom (fuel + 1) (.plus a) pos s k
      = matchFrom fuel a pos s (fun pos1 s1 => k pos1 s1 || matchFrom fuel (.plus a) pos1 s1 k) :=
  rfl

/-- Unfolding of `matchFrom` at a concatenation. -/
theorem matchFrom_concat (fuel : Nat) (a b : Regexp) (pos : Nat) (s : List Nat)
    (k : Nat → List Nat → Bool) :
    matchFrom (fuel + 1) (.concat a b) pos s k
      = matchFrom fuel a pos s (fun pos1 s1 => matchFrom fuel b pos1 s1 k) :=
  rfl

/-- A character class does not match at the end of the input. -/
theorem matchFrom_class_nil (fuel : Nat) (rs : List (Nat × Nat)) (pos : Nat)
    (k : Nat → List Nat → Bool) :
    matchFrom fuel (.charClass rs) pos [] k = false := by
  cases fuel <;> rfl

/-- Unfolding of `matchFrom` at a character class, the input not at its end. -/
theorem matchFrom_class_cons (fuel : Nat) (rs : List (Nat × Nat)) (pos c : Nat) (s : List Nat)
    (k : Nat → List Nat → Bool) :
    matchFrom (fuel + 1) (.charClass rs) pos (c :: s) k = (inClass rs c && k (pos + 1) s) :=
  rfl

/-- Unfolding of `matchFrom` at `^`. -/
theorem matchFrom_beginText (fuel pos : Nat) (s : List Nat) (k : Nat → List Nat → Bool) :
    matchFrom (fuel + 1) .beginText pos s k = (decide (pos = 0) && k pos s) :=
  rfl

/-- Unfolding of `matchFrom` at `$`. -/
theorem matchFrom_endText (fuel pos : Nat) (s : List Nat) (k : Nat → List Nat → Bool) :
    matchFrom (fuel + 1) .endText pos s k = (s.isEmpty && k pos s) :=
  rfl

/-- What `[a-z0-9]+` followed by the end of the text accepts. -/
theorem matchFrom_plus_class (s : List Nat) :
    ∀ (fuel pos : Nat) (k : Nat → List Nat → Bool), (∀ p t, k p t = t.isEmpty) →
      s.length + 2 ≤ fuel →
      matchFrom fuel (.plus (.charClass alnumClass)) pos s k
        = (!s.isEmpty && s.all (inClass alnumClass)) := by
  induction s with
  | nil =>
    intro fuel pos k _ hf
    obtain ⟨f1, rfl⟩ : ∃ f1, fuel = f1 + 1 := ⟨fuel - 1, by simp at hf; omega⟩
    rw [matchFrom_plus, matchFrom_class_nil]; rfl
  | cons c t ih =>
    intro fuel pos k hk hf
    obtain ⟨f1, rfl⟩ : ∃ f1, fuel = f1 + 1 + 1 := ⟨fuel - 2, by simp at hf; omega⟩
    rw [matchFrom_plus, matchFrom_class_cons, hk,
      ih (f1 + 1) (pos + 1) k hk (by simp at hf ⊢; omega)]
    cases t <;> simp

/-- The strings `^[a-z0-9]+$` matches: not empty, every rune in the class. -/
theorem matchString_filename (s : GoString) :
    MatchString filenameRegexp s
      = (!(runes s).isEmpty && (runes s).all (inClass alnumClass)) := by
  unfold MatchString
  simp only []
  generalize runes s = rs
  have hsize : filenameRegexp.size = 6 := rfl
  rw [hsize]
  have key : ∀ i, matchFrom (rs.length + 6 + 1) filenameRegexp i (rs.drop i) (fun _ _ => true)
      = (decide (i = 0) && (!(rs.drop i).isEmpty && (rs.drop i).all (inClass alnumClass))) := by
    intro i
    unfold filenameRegexp
    rw [matchFrom_concat, show rs.length + 6 = rs.length + 5 + 1 from rfl, matchFrom_beginText,
      matchFrom_concat,
      matchFrom_plus_class _ _ _ _ (by intro p t; rw [show rs.length + 5 = rs.length + 4 + 1 from rfl, matchFrom_endText, Bool.and_true])
        (by simp only [List.length_drop]; omega)]
  simp only [key]
  rw [Bool.eq_iff_iff, List.any_eq_true]
  constructor
  · rintro ⟨i, _, hi⟩
    simp only [Bool.and_eq_true, decide_eq_true_eq] at hi
    obtain ⟨rfl, h⟩ := hi
    simpa using h
  · intro h
    exact ⟨0, by simp, by simpa using h⟩

/-- C1. For every string `fname`, `CheckFilename fname` is true if and only if the length
of `fname` is between 1 and 16 and every byte of `fname` is a lowercase ASCII letter or a
digit. -/
theorem CheckFilename_iff (fname : GoString) :
    CheckFilename fname = true ↔
      (1 ≤ fname.length ∧ fname.length ≤ 16) ∧ ∀ b ∈ fname, isLowerAlnum b := by
  unfold CheckFilename
  simp only []
  split
  · rename_i h
    constructor
    · intro h'; exact absurd h' (by simp)
    · rintro ⟨h1, _⟩; omega
  · rename_i h
    rw [matchString_filename, runes_isEmpty]
    unfold runes
    simp only [Bool.and_eq_true, Bool.not_eq_true', decodeRunes_all _ _ (le_refl _)]
    constructor
    · rintro ⟨_, h2⟩; exact ⟨by omega, h2⟩
    · rintro ⟨h1, h2⟩
      refine ⟨?_, h2⟩
      cases fname with
      | nil => simp at h1
      | cons _ _ => rfl

/-! ### `strconv` -/

/-- The digits `formatBits` writes: at least one and at most `fuel`, all decimal, and
read back by `parseDigits` as the number formatted. -/
theorem formatBits_spec (fuel : Nat) :
    ∀ (u : Nat) (acc : GoString), u < 10 ^ fuel → 1 ≤ fuel →
      ∃ ds : GoString, formatBits fuel u acc = ds ++ acc ∧ 1 ≤ ds.length ∧ ds.length ≤ fuel
        ∧ (∀ b ∈ ds, 0x30 ≤ b.val ∧ b.val ≤ 0x39)
        ∧ ∀ (n : Nat) (rest : GoString),
            parseDigits n (ds ++ rest) = parseDigits (n * 10 ^ ds.length + u) rest := by
  induction fuel with
  | zero => intro u acc _ h; omega
  | succ fuel ih =>
    intro u acc hu _
    have hd : (0x30 + u % 10) < 256 := by omega
    by_cases h0 : u / 10 = 0
    · refine ⟨[⟨0x30 + u % 10, hd⟩], ?_, by simp, by simp, ?_, ?_⟩
      · simp [formatBits, h0]
      · intro b hb
        simp only [List.mem_singleton] at hb
        subst hb
        simp only []
        omega
      · intro n rest
        have hlt : u < 10 := by omega
        have hmod : u % 10 = u := Nat.mod_eq_of_lt hlt
        have h1 : 0x30 ≤ 0x30 + u % 10 ∧ 0x30 + u % 10 ≤ 0x39 := by omega
        have e : 0x30 + u % 10 - 0x30 = u := by omega
        simp only [List.singleton_append, parseDigits, List.length_singleton, pow_one]
        rw [if_pos h1, e]
        rfl
    · have hf : 1 ≤ fuel := by
        rcases Nat.eq_zero_or_pos fuel with h | h
        · subst h; simp at hu; omega
        · exact h
      have hu' : u / 10 < 10 ^ fuel := by
        rw [pow_succ] at hu
        exact Nat.div_lt_of_lt_mul (by rw [Nat.mul_comm]; exact hu)
      obtain ⟨ds, hds, hl1, hl2, hdig, hparse⟩ :=
        ih (u / 10) (⟨0x30 + u % 10, hd⟩ :: acc) hu' hf
      refine ⟨ds ++ [⟨0x30 + u % 10, hd⟩], ?_, by simp, by simp; omega, ?_, ?_⟩
      · simp [formatBits, h0, hds]
      · intro b hb
        rcases List.mem_append.mp hb with hb | hb
        · exact hdig b hb
        · simp only [List.mem_singleton] at hb
          subst hb
          simp only []
          omega
      · intro n rest
        rw [List.append_assoc, hparse]
        simp only [List.singleton_append, parseDigits, List.length_append, List.length_singleton]
        have h1 : 0x30 ≤ 0x30 + u % 10 ∧ 0x30 + u % 10 ≤ 0x39 := by omega
        rw [if_pos h1]
        congr 1
        rw [pow_succ]
        have := Nat.div_add_mod u 10
        have e : 0x30 + u % 10 - 0x30 = u % 10 := by omega
        rw [e]
        nlinarith [Nat.div_add_mod u 10]

/-- The literal `-` is the byte `0x2D`. -/
theorem ascii_minus : ascii "-" = [0x2D] := by decide

/-- `Atoi` reads back what `Itoa` wrote, for every value of an `int`. -/
theorem Atoi_Itoa (k : Int) (hlo : -(2 ^ 63 : Int) ≤ k) (hhi : k < 2 ^ 63) :
    Atoi (Itoa k) = (k, none) ∧ 1 ≤ (Itoa k).length ∧ (Itoa k).length ≤ 21 := by
  norm_num at hlo hhi
  have hu : k.natAbs < 10 ^ 20 := by norm_num; omega
  obtain ⟨ds, hds, hl1, hl2, hdig, hparse⟩ := formatBits_spec 20 k.natAbs [] hu (by norm_num)
  rw [List.append_nil] at hds
  have hp : parseDigits 0 ds = some k.natAbs := by
    have := hparse 0 []
    simpa [parseDigits] using this
  obtain ⟨d, ds', rfl⟩ : ∃ d ds', ds = d :: ds' := by
    cases ds with
    | nil => simp at hl1
    | cons d ds' => exact ⟨d, ds', rfl⟩
  have hd := hdig d (by simp)
  unfold Itoa FormatInt
  by_cases hneg : k < 0
  · rw [if_pos hneg, hds, ascii_minus]
    refine ⟨?_, by simp, by simp at hl2 ⊢; omega⟩
    have hle : ¬ (9223372036854775808 < k.natAbs) := by omega
    have hk : -(k.natAbs : Int) = k := by omega
    simp only [Atoi, List.singleton_append, List.head?_cons, true_or, if_true, List.drop_one,
      List.tail_cons, reduceCtorEq, if_false, intSize, decide_True]
    rw [hp]
    simp only [Nat.reducePow, Nat.add_one_sub_one, gt_iff_lt, hle, if_false, hk]
  · rw [if_neg hneg, hds]
    refine ⟨?_, by simp, by simp at hl2 ⊢; omega⟩
    have hk : (k.natAbs : Int) = k := by omega
    have hlt : ¬ (9223372036854775808 ≤ k.natAbs) := by omega
    have h2d : d ≠ 0x2D := by
      intro h; subst h; exact absurd hd (by decide)
    have h2b : d ≠ 0x2B := by
      intro h; subst h; exact absurd hd (by decide)
    simp only [Atoi, List.head?_cons, Option.some.injEq, h2d, h2b, or_self, if_false,
      reduceCtorEq, intSize, decide_False]
    rw [hp]
    simp only [Nat.reducePow, Nat.add_one_sub_one, ge_iff_le, hlt, if_false, hk]

/-! ### The local storage helpers -/

/-- The function `os.IsNotExist` holds of the error of `os.Stat` exactly when the call
did not fail for another reason and no file is at the path. -/
theorem isNotExist_osStat (fs : FileSys) (p : GoString) :
    IsNotExist (osStat fs p) = true ↔ fs.fails .stat p = false ∧ fs.files p = none := by
  unfold osStat
  by_cases h1 : fs.fails .stat p = true
  · simp [h1, IsNotExist]
  · by_cases h2 : fs.files p = none
    · simp [h1, h2, IsNotExist]
    · simp [h1, h2, IsNotExist]

/-- The file just put holds the data put. -/
theorem put_files_same (fs : FileSys) (p : GoString) (d : List (Fin 256)) :
    (fs.put p d).files p = some d := by
  simp [FileSys.put]

/-- Putting a file does not change which system calls fail. -/
theorem put_fails (fs : FileSys) (p : GoString) (d : List (Fin 256)) :
    (fs.put p d).fails = fs.fails := rfl

/-- What `CreateFile` does: an error is a `LocalPathError` of the path and leaves the
file system as it was; without an error the file exists afterwards, empty when it was
created and unchanged when it was there. -/
theorem CreateFile_spec (fs : FileSys) (p : GoString) :
    ((CreateFile fs p).2 = some (.LocalPathError p) ∧ (CreateFile fs p).1 = fs) ∨
    ((CreateFile fs p).2 = none ∧ fs.files p = none ∧ (CreateFile fs p).1 = fs.put p []) ∨
    ((CreateFile fs p).2 = none ∧ (CreateFile fs p).1 = fs ∧
      (fs.files p = none → fs.fails .stat p = true)) := by
  unfold CreateFile
  by_cases h : IsNotExist (osStat fs p) = true
  · rw [if_pos h]
    have h' := (isNotExist_osStat fs p).mp h
    unfold osCreate
    by_cases hc : fs.fails .create p = true
    · left; simp [hc]
    · right; left; simp [hc, h'.2]
  · rw [if_neg h]
    right; right
    refine ⟨rfl, rfl, ?_⟩
    intro hn
    by_contra hs
    exact h ((isNotExist_osStat fs p).mpr ⟨by simpa using hs, hn⟩)

/-- Writing at offset 0 replaces the first bytes and keeps the rest. -/
theorem writeAt_zero (old b : List (Fin 256)) : writeAt old 0 b = b ++ old.drop b.length := by
  simp [writeAt]

/-- The file a successful `StoreFileOnDisk` leaves. -/
theorem StoreFileOnDisk_file (fs : FileSys) (contents : List (Fin 256))
    (localPath fname : GoString)
    (hok : (StoreFileOnDisk fs contents localPath fname).2 = none) :
    (StoreFileOnDisk fs contents localPath fname).1.files (Join [localPath, fname ++ ascii ".dfs"])
      = some (contents ++
          ((fs.files (Join [localPath, fname ++ ascii ".dfs"])).getD []).drop contents.length) := by
  revert hok
  unfold StoreFileOnDisk
  simp only []
  generalize Join [localPath, fname ++ ascii ".dfs"] = p
  rcases CreateFile_spec fs p with ⟨he, hfs⟩ | ⟨he, hn, hfs⟩ | ⟨he, hfs, _⟩
  all_goals
    rcases hcf : CreateFile fs p with ⟨fs1, e1⟩
    rw [hcf] at he hfs
    simp only at he hfs
    subst he hfs
    simp only []
  · intro h; exact absurd h (by simp)
  · unfold osOpenFileWronly fileWrite fileWriteAt
    simp only [put_fails, put_files_same]
    by_cases ho : fs.fails .openWrite p = true
    · simp [ho]
    · by_cases hw : fs.fails .write p = true
      · simp [ho, hw]
      · simp [ho, hw, hn, put_files_same, writeAt_zero]
  · unfold osOpenFileWronly fileWrite fileWriteAt
    by_cases ho : fs1.fails .openWrite p = true
    · simp [ho]
    · by_cases hw : fs1.fails .write p = true
      · cases hf : fs1.files p <;> simp [ho, hw, hf]
      · cases hf : fs1.files p
        · simp [ho, hw, hf]
        · simp [ho, hw, hf, put_files_same, writeAt_zero]

/-- The file a successful `WriteChunk` leaves: the chunk written at byte offset
`chunkNum` of the file as it was (empty when it was absent). -/
theorem WriteChunk_file (fs : FileSys) (localPath fname : GoString) (chunk : Chunk)
    (chunkNum : Fin 256)
    (hok : (WriteChunk fs localPath fname chunk chunkNum).2 = none) :
    (WriteChunk fs localPath fname chunk chunkNum).1.files (Join [localPath, fname ++ ascii ".dfs"])
      = some (writeAt ((fs.files (Join [localPath, fname ++ ascii ".dfs"])).getD [])
          chunkNum.val chunk.bytes) := by
  revert hok
  unfold WriteChunk
  simp only []
  generalize Join [localPath, fname ++ ascii ".dfs"] = p
  rcases CreateFile_spec fs p with ⟨he, hfs⟩ | ⟨he, hn, hfs⟩ | ⟨he, hfs, _⟩
  all_goals
    rcases hcf : CreateFile fs p with ⟨fs1, e1⟩
    rw [hcf] at he hfs
    simp only at he hfs
    subst he hfs
    simp only []
  · intro h; exact absurd h (by simp)
  · unfold osOpenFileWronly fileWriteAt
    simp only [put_fails, put_files_same]
    by_cases ho : fs.fails .openWrite p = true
    · simp [ho]
    · by_cases hw : fs.fails .write p = true
      · simp [ho, hw]
      · simp [ho, hw, hn, put_files_same]
  · unfold osOpenFileWronly fileWriteAt
    by_cases ho : fs1.fails .openWrite p = true
    · simp [ho]
    · by_cases hw : fs1.fails .write p = true
      · cases hf : fs1.files p <;> simp [ho, hw, hf]
      · cases hf : fs1.files p
        · simp [ho, hw, hf]
        · simp [ho, hw, hf, put_files_same]

/-- The theorem `WriteChunk_file` for chunk number 3 on a mirror file of two bytes. -/
theorem WriteChunk_file_witness :
    (WriteChunk (emptyFS.put (ascii "/tmp/dfs/abc123.dfs") [1, 2]) (ascii "/tmp/dfs")
        (ascii "abc123") (constChunk 7) 3).1.files
        (Join [ascii "/tmp/dfs", ascii "abc123" ++ ascii ".dfs"])
      = some (writeAt (((emptyFS.put (ascii "/tmp/dfs/abc123.dfs") [1, 2]).files
          (Join [ascii "/tmp/dfs", ascii "abc123" ++ ascii ".dfs"])).getD [])
          (3 : Fin 256).val (constChunk 7).bytes) :=
  WriteChunk_file (emptyFS.put (ascii "/tmp/dfs/abc123.dfs") [1, 2]) (ascii "/tmp/dfs")
    (ascii "abc123") (constChunk 7) 3 (by decide)

/-- C2. `MountDFS` never succeeds: for every server address, local IP and local path it
returns the `nil` handle and `LocalPathError(localPath)`, also for a usable local path. -/
theorem MountDFS_always_LocalPathError (serverAddr localIP localPath : GoString) :
    MountDFS serverAddr localIP localPath = (none, some (.LocalPathError localPath)) :=
  rfl

/-- C3. On a file system without files, `WriteChunk` of the chunk of 32 bytes `0xAA`
with chunk number 1 succeeds and leaves a mirror file of 33 bytes, a zero byte followed
by the chunk: the chunk lies at byte offset 1, and from byte offset 32 the file holds one
byte only. -/
theorem WriteChunk_offset_is_chunkNum :
    (WriteChunk emptyFS (ascii "/tmp/dfs") (ascii "abc123") (constChunk 0xAA) 1).2 = none ∧
    (WriteChunk emptyFS (ascii "/tmp/dfs") (ascii "abc123") (constChunk 0xAA) 1).1.files
        (ascii "/tmp/dfs/abc123.dfs") = some (0 :: (constChunk 0xAA).bytes) ∧
    (((WriteChunk emptyFS (ascii "/tmp/dfs") (ascii "abc123") (constChunk 0xAA) 1).1.files
        (ascii "/tmp/dfs/abc123.dfs")).map (fun d => (d.drop (1 * 32)).take 32)) = some [0xAA] := by
  decide

/-- C4. When no file is at the id path and `os.Stat` and `os.Create` do not fail there,
`FetchOldId` returns the id `-1` and no error, leaves an empty file at the id path and
every other file as it was. -/
theorem FetchOldId_absent (fs : FileSys) (localPath : GoString)
    (habsent : fs.files (Join [localPath, ascii "id.txt"]) = none)
    (hstat : fs.fails .stat (Join [localPath, ascii "id.txt"]) = false)
    (hcreate : fs.fails .create (Join [localPath, ascii "id.txt"]) = false) :
    (FetchOldId fs localPath).2 = (-1, none) ∧
    (FetchOldId fs localPath).1.files (Join [localPath, ascii "id.txt"]) = some [] ∧
    ∀ q, q ≠ Join [localPath, ascii "id.txt"] →
      (FetchOldId fs localPath).1.files q = fs.files q := by
  have h := (isNotExist_osStat fs (Join [localPath, ascii "id.txt"])).mpr ⟨hstat, habsent⟩
  have h1 : FetchOldId fs localPath = (fs.put (Join [localPath, ascii "id.txt"]) [], -1, none) := by
    unfold FetchOldId
    simp only [h, if_true, osCreate, hcreate, Bool.false_eq_true, if_false]
  rw [h1]
  refine ⟨rfl, put_files_same _ _ _, ?_⟩
  intro q hq
  simp [FileSys.put, hq]

/-- The theorem `FetchOldId_absent` on the file system without files, for the local path
`/tmp/dfs`. -/
theorem FetchOldId_absent_witness :
    (FetchOldId emptyFS (ascii "/tmp/dfs")).2 = (-1, none) ∧
    (FetchOldId emptyFS (ascii "/tmp/dfs")).1.files (Join [ascii "/tmp/dfs", ascii "id.txt"])
      = some [] ∧
    ∀ q, q ≠ Join [ascii "/tmp/dfs", ascii "id.txt"] →
      (FetchOldId emptyFS (ascii "/tmp/dfs")).1.files q = emptyFS.files q :=
  FetchOldId_absent emptyFS (ascii "/tmp/dfs") rfl rfl rfl

/-- C5. For every integer `k` that fits in an `int`: when the id file holds the decimal
text of `k` and `os.Open` and the read do not fail on it, `FetchOldId` returns
the id `k` and no error and leaves the file system as it was. -/
theorem FetchOldId_stored (fs : FileSys) (localPath : GoString) (k : Int)
    (hlo : -(2 ^ 63 : Int) ≤ k) (hhi : k < 2 ^ 63)
    (hfile : fs.files (Join [localPath, ascii "id.txt"]) = some (Itoa k))
    (hopen : fs.fails .openRead (Join [localPath, ascii "id.txt"]) = false)
    (hread : fs.fails .read (Join [localPath, ascii "id.txt"]) = false) :
    FetchOldId fs localPath = (fs, k, none) := by
  obtain ⟨hat, hl1, hl2⟩ := Atoi_Itoa k hlo hhi
  have hne : IsNotExist (osStat fs (Join [localPath, ascii "id.txt"])) = false := by
    rw [Bool.eq_false_iff]
    intro h
    have := ((isNotExist_osStat fs _).mp h).2
    rw [hfile] at this
    exact absurd this (by simp)
  have hnil : Itoa k ≠ [] := by
    intro h; rw [h] at hl1; simp at hl1
  have htake : (Itoa k).take 64 = Itoa k := List.take_of_length_le (by omega)
  unfold FetchOldId
  simp only [hne, Bool.false_eq_true, if_false, osOpen, hopen, hfile, reduceCtorEq, fileRead,
    hread, hnil, false_and, htake, hat]

/-- The theorem `FetchOldId_stored` for the id `-42` stored in `/tmp/dfs/id.txt`. -/
theorem FetchOldId_stored_witness :
    FetchOldId (emptyFS.put (ascii "/tmp/dfs/id.txt") (ascii "-42")) (ascii "/tmp/dfs")
      = (emptyFS.put (ascii "/tmp/dfs/id.txt") (ascii "-42"), -42, none) :=
  FetchOldId_stored (emptyFS.put (ascii "/tmp/dfs/id.txt") (ascii "-42")) (ascii "/tmp/dfs")
    (-42) (by decide) (by decide) (by decide) rfl rfl

/-- C6. Two calls of `FetchOldId` in a row: when no file is at the id path and no system
call fails there, the first call returns `(-1, nil)` and the second, which finds the empty
id file, returns `-1` with `LocalPathError` of the id path. -/
theorem FetchOldId_twice (fs : FileSys) (localPath : GoString)
    (habsent : fs.files (Join [localPath, ascii "id.txt"]) = none)
    (hfails : ∀ c, fs.fails c (Join [localPath, ascii "id.txt"]) = false) :
    (FetchOldId fs localPath).2 = (-1, none) ∧
    (FetchOldId (FetchOldId fs localPath).1 localPath).2
      = (-1, some (.LocalPathError (Join [localPath, ascii "id.txt"]))) := by
  have h := (isNotExist_osStat fs (Join [localPath, ascii "id.txt"])).mpr
    ⟨hfails .stat, habsent⟩
  have h1 : FetchOldId fs localPath = (fs.put (Join [localPath, ascii "id.txt"]) [], -1, none) := by
    unfold FetchOldId
    simp only [h, if_true, osCreate, hfails, Bool.false_eq_true, if_false]
  rw [h1]
  refine ⟨rfl, ?_⟩
  have hne : IsNotExist (osStat (fs.put (Join [localPath, ascii "id.txt"]) [])
      (Join [localPath, ascii "id.txt"])) = false := by
    rw [Bool.eq_false_iff]
    intro h
    have := ((isNotExist_osStat _ _).mp h).2
    rw [put_files_same] at this
    exact absurd this (by simp)
  unfold FetchOldId
  simp only [hne, Bool.false_eq_true, if_false, osOpen, put_fails, hfails, put_files_same,
    reduceCtorEq, fileRead, true_and, gt_iff_lt, Nat.ofNat_pos, if_true]

/-- The theorem `FetchOldId_twice` on the file system without files, for the local path
`/tmp/dfs`. -/
theorem FetchOldId_twice_witness :
    (FetchOldId emptyFS (ascii "/tmp/dfs")).2 = (-1, none) ∧
    (FetchOldId (FetchOldId emptyFS (ascii "/tmp/dfs")).1 (ascii "/tmp/dfs")).2
      = (-1, some (.LocalPathError (Join [ascii "/tmp/dfs", ascii "id.txt"]))) :=
  FetchOldId_twice emptyFS (ascii "/tmp/dfs") rfl (fun _ => rfl)

/-- C7, as stated, fails: with the mirror file holding the three bytes `1, 2, 3`, a
successful `StoreFileOnDisk` of the one byte `9` leaves the file holding `9, 2, 3`. -/
theorem StoreFileOnDisk_keeps_tail :
    (StoreFileOnDisk (emptyFS.put (ascii "/tmp/dfs/abc123.dfs") [1, 2, 3]) [9]
        (ascii "/tmp/dfs") (ascii "abc123")).2 = none ∧
    (StoreFileOnDisk (emptyFS.put (ascii "/tmp/dfs/abc123.dfs") [1, 2, 3]) [9]
        (ascii "/tmp/dfs") (ascii "abc123")).1.files (ascii "/tmp/dfs/abc123.dfs")
      = some [9, 2, 3] ∧
    (StoreFileOnDisk (emptyFS.put (ascii "/tmp/dfs/abc123.dfs") [1, 2, 3]) [9]
        (ascii "/tmp/dfs") (ascii "abc123")).1.files (ascii "/tmp/dfs/abc123.dfs")
      ≠ some [9] := by
  decide

/-- C7, amended. For every prior state of the mirror file, a successful `StoreFileOnDisk`
leaves the file holding the given contents followed by the bytes the file held beyond
the length of the contents; so the file holds exactly the contents when it was absent or
held no more bytes than the contents. -/
theorem StoreFileOnDisk_overwrites (fs : FileSys) (contents : List (Fin 256))
    (localPath fname : GoString)
    (hok : (StoreFileOnDisk fs contents localPath fname).2 = none) :
    (StoreFileOnDisk fs contents localPath fname).1.files
        (Join [localPath, fname ++ ascii ".dfs"])
      = some (contents ++
          ((fs.files (Join [localPath, fname ++ ascii ".dfs"])).getD []).drop contents.length) ∧
    (((fs.files (Join [localPath, fname ++ ascii ".dfs"])).getD []).length ≤ contents.length →
      (StoreFileOnDisk fs contents localPath fname).1.files
        (Join [localPath, fname ++ ascii ".dfs"]) = some contents) := by
  have h := StoreFileOnDisk_file fs contents localPath fname hok
  refine ⟨h, ?_⟩
  intro hlen
  rw [h, List.drop_of_length_le hlen, List.append_nil]

/-- The theorem `StoreFileOnDisk_overwrites` for four bytes stored over a mirror file of
three bytes. -/
theorem StoreFileOnDisk_overwrites_witness :
    (StoreFileOnDisk (emptyFS.put (ascii "/tmp/dfs/abc123.dfs") [1, 2, 3]) [7, 8, 9, 10]
        (ascii "/tmp/dfs") (ascii "abc123")).1.files
        (Join [ascii "/tmp/dfs", ascii "abc123" ++ ascii ".dfs"])
      = some ([7, 8, 9, 10] ++
          (((emptyFS.put (ascii "/tmp/dfs/abc123.dfs") [1, 2, 3]).files
            (Join [ascii "/tmp/dfs", ascii "abc123" ++ ascii ".dfs"])).getD []).drop
              [7, 8, 9, 10].length) ∧
    ((((emptyFS.put (ascii "/tmp/dfs/abc123.dfs") [1, 2, 3]).files
        (Join [ascii "/tmp/dfs", ascii "abc123" ++ ascii ".dfs"])).getD []).length
        ≤ [7, 8, 9, 10].length →
      (StoreFileOnDisk (emptyFS.put (ascii "/tmp/dfs/abc123.dfs") [1, 2, 3]) [7, 8, 9, 10]
        (ascii "/tmp/dfs") (ascii "abc123")).1.files
        (Join [ascii "/tmp/dfs", ascii "abc123" ++ ascii ".dfs"]) = some [7, 8, 9, 10]) :=
  StoreFileOnDisk_overwrites (emptyFS.put (ascii "/tmp/dfs/abc123.dfs") [1, 2, 3])
    [7, 8, 9, 10] (ascii "/tmp/dfs") (ascii "abc123") (by decide)

/-- The error of `FetchOldId` is `nil` or the `LocalPathError` of the id path. -/
theorem FetchOldId_error (fs : FileSys) (localPath : GoString) :
    (FetchOldId fs localPath).2.2 = none ∨
    (FetchOldId fs localPath).2.2 = some (.LocalPathError (Join [localPath, ascii "id.txt"])) := by
  unfold FetchOldId
  simp only []
  repeat' split
  all_goals simp

/-- The error of `StoreFileOnDisk` is `nil` or the `LocalPathError` of the mirror file. -/
theorem StoreFileOnDisk_error (fs : FileSys) (contents : List (Fin 256))
    (localPath fname : GoString) :
    (StoreFileOnDisk fs contents localPath fname).2 = none ∨
    (StoreFileOnDisk fs contents localPath fname).2
      = some (.LocalPathError (Join [localPath, fname ++ ascii ".dfs"])) := by
  unfold StoreFileOnDisk
  simp only []
  repeat' split
  all_goals simp

/-- The error of `WriteChunk` is `nil` or the `LocalPathError` of the mirror file. -/
theorem WriteChunk_error (fs : FileSys) (localPath fname : GoString) (chunk : Chunk)
    (chunkNum : Fin 256) :
    (WriteChunk fs localPath fname chunk chunkNum).2 = none ∨
    (WriteChunk fs localPath fname chunk chunkNum).2
      = some (.LocalPathError (Join [localPath, fname ++ ascii ".dfs"])) := by
  unfold WriteChunk
  simp only []
  repeat' split
  all_goals simp

/-- C8. Whatever the state of the file system and whichever system calls fail, the error
returned by `CreateFile`, `FetchOldId`, `StoreFileOnDisk` and `WriteChunk` is `nil` or
the `LocalPathError` of the full path of the file the call acts on. -/
theorem local_errors_are_LocalPathError (fs : FileSys) (fullPath localPath fname : GoString)
    (contents : List (Fin 256)) (chunk : Chunk) (chunkNum : Fin 256) :
    ((CreateFile fs fullPath).2 = none ∨
      (CreateFile fs fullPath).2 = some (.LocalPathError fullPath)) ∧
    ((FetchOldId fs localPath).2.2 = none ∨
      (FetchOldId fs localPath).2.2
        = some (.LocalPathError (Join [localPath, ascii "id.txt"]))) ∧
    ((StoreFileOnDisk fs contents localPath fname).2 = none ∨
      (StoreFileOnDisk fs contents localPath fname).2
        = some (.LocalPathError (Join [localPath, fname ++ ascii ".dfs"]))) ∧
    ((WriteChunk fs localPath fname chunk chunkNum).2 = none ∨
      (WriteChunk fs localPath fname chunk chunkNum).2
        = some (.LocalPathError (Join [localPath, fname ++ ascii ".dfs"]))) := by
  refine ⟨?_, FetchOldId_error fs localPath, StoreFileOnDisk_error fs contents localPath fname,
    WriteChunk_error fs localPath fname chunk chunkNum⟩
  rcases CreateFile_spec fs fullPath with h | h | h
  · exact Or.inr h.1
  · exact Or.inl h.1
  · exact Or.inl h.1

/-- C9. On a file system without files, `WriteChunk` of the chunk of 32 bytes `1` with
chunk number 0 followed by `WriteChunk` of the chunk of 32 bytes `2` with chunk number 1
on the same file: both succeed, and the first 32 bytes of the file are then one byte `1`
followed by 31 bytes `2`, not the chunk written with number 0. -/
theorem WriteChunk_overlaps :
    (WriteChunk emptyFS (ascii "/tmp/dfs") (ascii "abc123") (constChunk 1) 0).2 = none ∧
    (WriteChunk (WriteChunk emptyFS (ascii "/tmp/dfs") (ascii "abc123") (constChunk 1) 0).1
        (ascii "/tmp/dfs") (ascii "abc123") (constChunk 2) 1).2 = none ∧
    ((WriteChunk (WriteChunk emptyFS (ascii "/tmp/dfs") (ascii "abc123") (constChunk 1) 0).1
        (ascii "/tmp/dfs") (ascii "abc123") (constChunk 2) 1).1.files
        (ascii "/tmp/dfs/abc123.dfs")).map (fun d => (d.drop (0 * 32)).take 32)
      = some (1 :: List.replicate 31 2) ∧
    ((WriteChunk (WriteChunk emptyFS (ascii "/tmp/dfs") (ascii "abc123") (constChunk 1) 0).1
        (ascii "/tmp/dfs") (ascii "abc123") (constChunk 2) 1).1.files
        (ascii "/tmp/dfs/abc123.dfs")).map (fun d => (d.drop (0 * 32)).take 32)
      ≠ some (constChunk 1).bytes := by
  decide

/-! ### The proof-of-work client -/

set_option maxRecDepth 4096

/-- C10. With the empty nonce, difficulty 1 and the range `[0, 1)`, and nothing ever
arriving on the channel `done`, `computeSecret` sends the secret `1`, the end of the range,
which it never hashed: the hash of the nonce and `1` is `c4ca4238a0b923820dcc509a6f75849b`,
which does not end with a `0`. -/
theorem computeSecret_sends_end_of_range :
    computeSecret [] 1 0 1 (fun _ => false) = .sent (ascii "1") ∧
    computeNonceSecretHash [] (ascii "1") = ascii "c4ca4238a0b923820dcc509a6f75849b" ∧
    endsWithZeros (computeNonceSecretHash [] (ascii "1")) 1 = false := by
  decide

/-- What the loop of `computeSecret` sends: a secret with a valid hash, or the decimal
text of the value of `i` at which the loop ends. -/
theorem searchLoop_sent (nonce : GoString) (n : Int) (done : Int → Bool) (s : GoString)
    (hn : 0 ≤ n) :
    ∀ (count : Nat) (i : Int),
      searchLoop nonce n (List.replicate n.toNat 0x30) done count i = .sent s →
      endsWithZeros (computeNonceSecretHash nonce s) n.toNat = true ∨
        s = FormatInt (i + count) := by
  intro count
  induction count with
  | zero =>
    intro i h
    right
    simp only [searchLoop, Outcome.sent.injEq] at h
    simp [← h]
  | succ count ih =>
    intro i h
    unfold searchLoop at h
    split at h
    · exact absurd h (by simp)
    · split at h
      · exact absurd h (by simp)
      · rename_i tail htail
        split at h
        · rename_i hz
          left
          simp only [Outcome.sent.injEq] at h
          subst h
          unfold sliceFrom at htail
          split at htail
          · exact absurd htail (by simp)
          · rename_i hr
            simp only [Option.some.injEq] at htail
            unfold endsWithZeros
            rw [decide_eq_true_eq]
            have hlen : n.toNat ≤ (computeNonceSecretHash nonce (FormatInt i)).length := by omega
            refine ⟨hlen, ?_⟩
            have e : ((computeNonceSecretHash nonce (FormatInt i)).length - n : Int).toNat
                = (computeNonceSecretHash nonce (FormatInt i)).length - n.toNat := by omega
            rw [← e, htail, hz]
        · rcases ih (i + 1) h with h' | h'
          · exact Or.inl h'
          · right
            rw [h']
            congr 1
            push_cast
            ring

/-- What `computeSecret` sends, for a difficulty that is not negative: a secret whose
hash ends with `n` characters `0`, or the decimal text of the end of the range, sent when
the loop ran through the range without finding one. -/
theorem computeSecret_sent (nonce : GoString) (n lo hi : Int) (done : Int → Bool)
    (s : GoString) (hn : 0 ≤ n) (hsent : computeSecret nonce n lo hi done = .sent s) :
    endsWithZeros (computeNonceSecretHash nonce s) n.toNat = true ∨
      s = FormatInt (lo + (hi - lo).toNat) :=
  searchLoop_sent nonce n done s hn (hi - lo).toNat lo hsent

/-- The theorem `computeSecret_sent` at the empty nonce, difficulty 1 and the range
`[10, 11)`, where the secret `10` is found. -/
theorem computeSecret_sent_witness :
    endsWithZeros (computeNonceSecretHash [] (ascii "10")) (1 : Int).toNat = true ∨
      ascii "10" = FormatInt (10 + ((11 : Int) - 10).toNat) :=
  computeSecret_sent [] 1 10 11 (fun _ => false) (ascii "10") (by decide) (by decide)

end DFS
